import Mathlib

/-!
A shallow embedding of `src/container/src/main.py`, a FastAPI + SQLAlchemy +
SQLite CRUD service over one table `thing(id INTEGER PRIMARY KEY, text TEXT
NOT NULL)`, together with proofs of its specified properties.

Modelling decisions, each traceable to the source:

* A stored row (`Thing`) is an `id : Int` (SQLite `INTEGER PRIMARY KEY`,
  an alias of the 64-bit rowid; we use unbounded `Int`, overflow of the
  rowid is out of reach of this program) and a `text : Option String`
  (an SQL `TEXT` column can in general hold NULL; the `nullable=False`
  declaration is a constraint the code must maintain, claim C8).
* The table state is a `List Thing` in rowid order; `SELECT`/`session.get`
  scan it in order.
* The path parameter `id` of the three `/things/{id}` endpoints is declared
  `id: str` in the source.  `session.get(Thing, id)` emits
  `WHERE thing.id = :id` with a text value against an INTEGER-affinity
  column; SQLite applies NUMERIC affinity to the text operand: a
  well-formed integer or real literal (optional surrounding whitespace,
  optional sign, digits, optional fraction, optional decimal exponent) is
  converted and compared numerically, so `"1"`, `" 1"`, `"1.0"` and
  `"1e0"` all match the row with id `1`, while non-numeric text — and a
  numeric literal whose value is not an integer — compares unequal to
  every integer row.  `sqliteTextToInt` models this conversion, evaluating
  the literal exactly; SQLite parses real literals into 64-bit floats, so
  a literal so precise or so large that float rounding lands on a
  different integer than its exact value is outside the model (no such
  path is exercised here).
* `POST` inserts `Thing(text=thing.text)` with no id, so SQLite assigns the
  next rowid: one more than the largest rowid in use, or `1` for an empty
  table (`newId`).
* Python exceptions (the `AttributeError` from `thing.text = ...` on
  `None`, the SQLAlchemy `UnmappedInstanceError` from
  `session.delete(None)`, the pydantic validation error from building a
  `ThingModel` with a NULL text) are `Except` errors.  Each request runs in
  its own session; an exception raised before `session.commit()` leaves
  the stored table unchanged, so the error branches return the input state.
-/

set_option autoImplicit false

namespace Main

/-- SQLAlchemy model: `class Thing(Base)` with columns
`id = Column(Integer, primary_key=True)` and
`text = Column(String, nullable=False)`.  The `text` field is `Option`
because the SQL column type admits NULL; `nullable=False` is the constraint
whose maintenance is proved separately. -/
structure Thing where
  id : Int
  text : Option String
deriving Repr, DecidableEq

/-- The state of the `thing` table: its rows in rowid order. -/
abbrev DB := List Thing

/-- Pydantic model: `class ThingModel(BaseModel)` with
`id: typing.Optional[int]` and `text: str`. -/
structure ThingModel where
  id : Option Int
  text : String
deriving Repr, DecidableEq

/-- The Python exceptions this program can raise on the modelled paths. -/
inductive PyError where
  /-- `AttributeError`: `thing.text = ...` when `thing` is `None`
  (`put_thing` on an absent id). -/
  | attributeErrorOnNone
  /-- `sqlalchemy.orm.exc.UnmappedInstanceError`: `session.delete(None)`
  (`delete_thing` on an absent id). -/
  | unmappedInstanceNone
  /-- pydantic validation error: constructing `ThingModel` with a missing
  required `text`. -/
  | validationError
deriving Repr, DecidableEq

/-- SQLite whitespace (`sqlite3Isspace`): space, horizontal tab, newline,
vertical tab, form feed, carriage return. -/
def isSqliteSpace (c : Char) : Bool :=
  c == ' ' || c == '\t' || c == '\n' || c == '\x0b' || c == '\x0c' || c == '\r'

/-- Drop leading SQLite whitespace. -/
def dropSpaces : List Char → List Char
  | [] => []
  | c :: cs => if isSqliteSpace c then dropSpaces cs else c :: cs

/-- Consume a run of decimal digits, extending the accumulator `acc`:
returns the accumulated value, the number of digits consumed, and the
rest of the input. -/
def digitsVal (acc : Nat) : List Char → Nat × Nat × List Char
  | [] => (acc, 0, [])
  | c :: cs =>
      if c.isDigit then
        match digitsVal (10 * acc + (c.toNat - 48)) cs with
        | (v, k, rest) => (v, k + 1, rest)
      else (acc, 0, c :: cs)

/-- An optional leading sign; `true` means negative. -/
def parseSign : List Char → Bool × List Char
  | '-' :: cs => (true, cs)
  | '+' :: cs => (false, cs)
  | cs => (false, cs)

/-- The optional fraction part `.digits`, continuing the mantissa
accumulation; returns the extended mantissa, the number of fraction
digits, and the rest. -/
def parseFraction (mant : Nat) : List Char → Nat × Nat × List Char
  | '.' :: cs => digitsVal mant cs
  | cs => (mant, 0, cs)

/-- The optional exponent part `(e|E)[sign]digits`; `none` when an
exponent marker is present without digits (the literal is then
malformed). -/
def parseExponent : List Char → Option (Int × List Char)
  | [] => some (0, [])
  | c :: cs =>
      if c == 'e' || c == 'E' then
        match parseSign cs with
        | (eneg, cs1) =>
            match digitsVal 0 cs1 with
            | (ev, ek, cs2) =>
                if ek = 0 then none
                else some ((if eneg then -(ev : Int) else (ev : Int)), cs2)
      else some (0, c :: cs)

/-- A well-formed SQLite numeric literal (`sqlite3AtoF` accepting the
whole text): optional surrounding whitespace, optional sign, digits with
an optional `.` fraction (at least one digit overall), and an optional
decimal exponent.  Returns `(negative, mantissa, exponent)` such that the
denoted value is `± mantissa * 10 ^ exponent`; `none` when the text is
not a well-formed numeric literal. -/
def parseNumeric (cs : List Char) : Option (Bool × Nat × Int) :=
  match parseSign (dropSpaces cs) with
  | (neg, cs1) =>
      match digitsVal 0 cs1 with
      | (ival, ik, cs2) =>
          match parseFraction ival cs2 with
          | (mant, fk, cs3) =>
              if ik + fk = 0 then none
              else
                match parseExponent cs3 with
                | none => none
                | some (ev, cs4) =>
                    if dropSpaces cs4 = [] then some (neg, mant, ev - (fk : Int))
                    else none

/-- `± n` as an integer. -/
def signedInt (neg : Bool) (n : Nat) : Int :=
  if neg then -(n : Int) else (n : Int)

/-- SQLite's comparison of a text value against an INTEGER-affinity
column: NUMERIC affinity converts a well-formed integer or real literal
and compares numerically, so the text matches the integer row `n` exactly
when its value is the integer `n`; non-numeric text, and a numeric value
with a non-zero fractional part, compares unequal to every integer, which
the caller reads as "no conversion" (`none`).  The literal's value
`± mantissa * 10 ^ exponent` is evaluated exactly. -/
def sqliteTextToInt (s : String) : Option Int :=
  match parseNumeric s.toList with
  | none => none
  | some (neg, mant, e) =>
      if 0 ≤ e then some (signedInt neg (mant * 10 ^ e.toNat))
      else if mant % 10 ^ (-e).toNat = 0 then
        some (signedInt neg (mant / 10 ^ (-e).toNat))
      else none

/-- `ThingModel(id=thing.id, text=thing.text)`: pydantic requires `text` to
be a `str`, so a NULL stored text fails validation. -/
def mkThingModel (t : Thing) : Except PyError ThingModel :=
  match t.text with
  | none => .error .validationError
  | some s => .ok { id := some t.id, text := s }

/-- `session.get(Thing, id)` with the string path parameter: SQLite
INTEGER-affinity comparison finds the row whose integer id the string
denotes, and matches nothing when the string is not an integer literal. -/
def sessionGet (db : DB) (id : String) : Option Thing :=
  match sqliteTextToInt id with
  | none => none
  | some n => db.find? (fun t => t.id = n)

/-- The rowid SQLite assigns to an insert that supplies no id: one more
than the largest rowid in use, or `1` for an empty table. -/
def newId (db : DB) : Int :=
  match db with
  | [] => 1
  | t :: ts => (ts.foldl (fun a x => max a x.id) t.id) + 1

/-- The list comprehension
`[ThingModel(id=thing.id, text=thing.text) for thing in things.scalars()]`:
builds a model for each row in order; the first validation failure
raises. -/
def modelsOf : DB → Except PyError (List ThingModel)
  | [] => .ok []
  | t :: ts =>
      match mkThingModel t with
      | .error e => .error e
      | .ok m =>
          match modelsOf ts with
          | .error e => .error e
          | .ok ms => .ok (m :: ms)

/-- `GET /things` (`get_things`): `select(Thing)` then build a
`ThingModel` from every row.  Read-only, so the table is returned
unchanged. -/
def get_things (db : DB) : Except PyError (List ThingModel) × DB :=
  (modelsOf db, db)

/-- `GET /things/{id}` (`get_thing`): `session.get`, then
`if thing: return ThingModel(...)`; falling off the end returns `None`
(an empty response body). -/
def get_thing (id : String) (db : DB) : Except PyError (Option ThingModel) × DB :=
  match sessionGet db id with
  | none => (.ok none, db)
  | some t => ((mkThingModel t).map some, db)

/-- `POST /things` (`post_thing`): `session.add(Thing(text=thing.text))`
then `commit`.  Only the body's `text` is used; SQLite assigns the id. -/
def post_thing (m : ThingModel) (db : DB) : Except PyError Unit × DB :=
  (.ok (), db ++ [{ id := newId db, text := some m.text }])

/-- `DELETE /things/{id}` (`delete_thing`): `session.get` then
`session.delete(thing)` then `commit`.  When the id is absent,
`session.delete(None)` raises before the commit, so the table is
unchanged; otherwise the commit issues `DELETE FROM thing WHERE id = ...`. -/
def delete_thing (id : String) (db : DB) : Except PyError Unit × DB :=
  match sessionGet db id with
  | none => (.error .unmappedInstanceNone, db)
  | some t => (.ok (), db.filter (fun x => x.id ≠ t.id))

/-- `PUT /things/{id}` (`put_thing`): `session.get` then
`thing.text = new_thing.text` then `commit`.  When the id is absent the
attribute assignment on `None` raises before the commit, so the table is
unchanged; otherwise the commit issues
`UPDATE thing SET text = ... WHERE id = ...`. -/
def put_thing (id : String) (m : ThingModel) (db : DB) : Except PyError Unit × DB :=
  match sessionGet db id with
  | none => (.error .attributeErrorOnNone, db)
  | some t =>
      (.ok (), db.map (fun x => if x.id = t.id then { x with text := some m.text } else x))

/-- A database file as seen by `create_db_and_tables`: the `thing` table
either absent (`none`) or present with its rows. -/
structure Storage where
  thingTable : Option DB
deriving Repr, DecidableEq

/-- `Base.metadata.drop_all`: drops the `thing` table (and all its rows)
if it exists. -/
def drop_all (_s : Storage) : Storage :=
  { thingTable := none }

/-- `Base.metadata.create_all`: creates the `thing` table empty when it is
absent, and leaves an existing table (and its rows) alone. -/
def create_all (s : Storage) : Storage :=
  match s.thingTable with
  | none => { thingTable := some [] }
  | some t => { thingTable := some t }

/-- `create_db_and_tables`: `drop_all` then `create_all`, run by the
`on_startup` hook. -/
def create_db_and_tables (s : Storage) : Storage :=
  create_all (drop_all s)

/-- The `@app.on_event("startup")` hook: `await create_db_and_tables()`. -/
def on_startup (s : Storage) : Storage :=
  create_db_and_tables s

/-- A sequence of `POST /things` requests, applied in order to the table
state (every POST succeeds, so only the state threads through). -/
def postAll (ms : List ThingModel) (db : DB) : DB :=
  ms.foldl (fun d m => (post_thing m d).2) db

/-- The schema constraint `nullable=False` on `Thing.text`: no stored row
holds a NULL text. -/
def TextNonNull (db : DB) : Prop :=
  ∀ r ∈ db, r.text ≠ none

end Main

namespace Main

/-! ### Helper lemmas -/

theorem le_foldl_max (l : List Thing) (a : Int) :
    a ≤ l.foldl (fun b x => max b x.id) a := by
  induction l generalizing a with
  | nil => exact le_refl a
  | cons h t ih => exact le_trans (le_max_left a h.id) (ih (max a h.id))

theorem mem_le_foldl_max (l : List Thing) (x : Thing) (hx : x ∈ l) :
    ∀ a, x.id ≤ l.foldl (fun b y => max b y.id) a := by
  induction hx with
  | head t => exact fun a => le_trans (le_max_right a x.id) (le_foldl_max t (max a x.id))
  | tail b _ ih => exact fun a => ih (max a b.id)

theorem id_lt_newId (db : DB) (x : Thing) (hx : x ∈ db) : x.id < newId db := by
  cases db with
  | nil => cases hx
  | cons h t =>
      simp only [newId]
      rcases List.mem_cons.mp hx with rfl | hm
      · have := le_foldl_max t x.id
        omega
      · have := mem_le_foldl_max t x hm h.id
        omega

theorem sessionGet_eq_some (db : DB) (s : String) (r : Thing)
    (h : sessionGet db s = some r) :
    ∃ n, sqliteTextToInt s = some n ∧
      db.find? (fun t => t.id = n) = some r ∧ r.id = n := by
  unfold sessionGet at h
  cases hp : sqliteTextToInt s with
  | none => rw [hp] at h; cases h
  | some n =>
      rw [hp] at h
      refine ⟨n, rfl, h, ?_⟩
      simpa using List.find?_some h

theorem sqliteTextToInt_affinity_cases :
    sqliteTextToInt "1" = some 1 ∧
    sqliteTextToInt " 1" = some 1 ∧
    sqliteTextToInt "1.0" = some 1 ∧
    sqliteTextToInt "1e0" = some 1 ∧
    sqliteTextToInt "3.0e+5" = some 300000 ∧
    sqliteTextToInt "100e-2" = some 1 ∧
    sqliteTextToInt "-12" = some (-12) ∧
    sqliteTextToInt "1.5" = none ∧
    sqliteTextToInt "abc" = none ∧
    sqliteTextToInt "" = none ∧
    sqliteTextToInt "1e" = none ∧
    sqliteTextToInt "0x10" = none :=
  ⟨rfl, rfl, rfl, rfl, rfl, rfl, rfl, rfl, rfl, rfl, rfl, rfl⟩

theorem sessionGet_real_literal_finds_row :
    sessionGet [⟨1, some "a"⟩] "1.0" = some ⟨1, some "a"⟩ ∧
    sessionGet [⟨1, some "a"⟩] " 1" = some ⟨1, some "a"⟩ :=
  ⟨rfl, rfl⟩

theorem sessionGet_parse_some (db : DB) (s : String) (n : Int)
    (hp : sqliteTextToInt s = some n) :
    sessionGet db s = db.find? (fun t => t.id = n) := by
  unfold sessionGet
  rw [hp]

theorem find?_id_map (n : Int) (f : Thing → Thing) (hf : ∀ x, (f x).id = x.id)
    (l : DB) :
    (l.map f).find? (fun x => x.id = n) = (l.find? (fun x => x.id = n)).map f := by
  induction l with
  | nil => rfl
  | cons h t ih =>
      by_cases hc : h.id = n
      · simp [List.find?_cons, hf, hc]
      · simp [List.find?_cons, hf, hc, ih]

theorem find?_id_filter_ne (n : Int) (l : DB) :
    (l.filter (fun x => x.id ≠ n)).find? (fun x => x.id = n) = none := by
  rw [List.find?_eq_none]
  intro x hx
  have hne := (List.mem_filter.mp hx).2
  simp only [decide_eq_true_eq] at hne ⊢
  simpa using hne

theorem find?_id_append_fresh (n : Int) (l : DB) (r : Thing)
    (hl : ∀ x ∈ l, x.id ≠ n) (hr : r.id = n) :
    (l ++ [r]).find? (fun x => x.id = n) = some r := by
  induction l with
  | nil => simp [List.find?_cons, hr]
  | cons h t ih =>
      have hh : h.id ≠ n := hl h (List.mem_cons_self h t)
      have hcons : ((h :: t) ++ [r]) = h :: (t ++ [r]) := rfl
      rw [hcons, List.find?_cons, decide_eq_false hh]
      exact ih (fun x hx => hl x (List.mem_cons_of_mem h hx))

theorem modelsOf_ok_of_textNonNull (db : DB) (h : TextNonNull db) :
    ∃ l, modelsOf db = .ok l ∧ l.length = db.length := by
  induction db with
  | nil => exact ⟨[], rfl, rfl⟩
  | cons t ts ih =>
      have ht : t.text ≠ none := h t (List.mem_cons_self t ts)
      obtain ⟨s, hs⟩ : ∃ s, t.text = some s := by
        cases hts : t.text with
        | none => exact absurd hts ht
        | some s => exact ⟨s, rfl⟩
      obtain ⟨l, hl, hlen⟩ := ih (fun r hr => h r (List.mem_cons_of_mem t hr))
      exact ⟨⟨some t.id, s⟩ :: l, by simp [modelsOf, mkThingModel, hs, hl], by simp [hlen]⟩

theorem postAll_nil (db : DB) : postAll [] db = db := rfl

theorem postAll_cons (m : ThingModel) (ms : List ThingModel) (db : DB) :
    postAll (m :: ms) db = postAll ms (post_thing m db).2 := rfl

theorem postAll_length (ms : List ThingModel) (db : DB) :
    (postAll ms db).length = db.length + ms.length := by
  induction ms generalizing db with
  | nil => simp [postAll_nil]
  | cons m t ih =>
      rw [postAll_cons, ih]
      simp [post_thing]
      omega

theorem postAll_textNonNull (ms : List ThingModel) (db : DB) (h : TextNonNull db) :
    TextNonNull (postAll ms db) := by
  induction ms generalizing db with
  | nil => simpa [postAll_nil] using h
  | cons m t ih =>
      rw [postAll_cons]
      apply ih
      intro r hr
      simp only [post_thing] at hr
      rcases List.mem_append.mp hr with hmem | hmem
      · exact h r hmem
      · simp at hmem
        simp [hmem]

theorem forall₂_map_self {f : Thing → Thing} (P : Thing → Thing → Prop)
    (hP : ∀ y, P (f y) y) (l : DB) : List.Forall₂ P (l.map f) l := by
  induction l with
  | nil => exact List.Forall₂.nil
  | cons h t ih => exact List.Forall₂.cons (hP h) ih

/-! ### The claimed properties -/

/-- Claim C2: round-trip — POSTing a Thing with text `t` and then GETting
`/things/{returned_id}` (any path string that denotes the id the store
assigned to the insert) returns a record whose id is that returned id and
whose text is `t`. -/
theorem post_then_get_roundtrip (t : String) (i : Option Int) (db : DB)
    (s : String) (hs : sqliteTextToInt s = some (newId db)) :
    get_thing s (post_thing ⟨i, t⟩ db).2 =
      (.ok (some ⟨some (newId db), t⟩), (post_thing ⟨i, t⟩ db).2) := by
  have hfind :
      ((db ++ [⟨newId db, some t⟩] : DB).find? (fun x => x.id = newId db)) =
        some ⟨newId db, some t⟩ :=
    find?_id_append_fresh (newId db) db ⟨newId db, some t⟩
      (fun x hx => ne_of_lt (id_lt_newId db x hx)) rfl
  have hget : sessionGet (post_thing ⟨i, t⟩ db).2 s = some ⟨newId db, some t⟩ := by
    unfold sessionGet
    rw [hs]
    exact hfind
  unfold get_thing
  rw [hget]
  rfl

theorem post_then_get_roundtrip_witness :
    get_thing "1" (post_thing ⟨none, "abc"⟩ []).2 =
      (.ok (some ⟨some 1, "abc"⟩), (post_thing ⟨none, "abc"⟩ []).2) :=
  post_then_get_roundtrip "abc" none [] "1" rfl

/-- Claim C3: list reflects inserts — starting from the empty table, after
`N` POST insertions (`N = ms.length`, every `N ≥ 0`), `GET /things`
succeeds and returns exactly `N` entries. -/
theorem get_things_length_after_inserts (ms : List ThingModel) :
    ∃ l, get_things (postAll ms []) = (.ok l, postAll ms []) ∧
      l.length = ms.length := by
  have hnn : TextNonNull (postAll ms []) :=
    postAll_textNonNull ms [] (fun r hr => absurd hr (List.not_mem_nil r))
  obtain ⟨l, hl, hlen⟩ := modelsOf_ok_of_textNonNull (postAll ms []) hnn
  refine ⟨l, ?_, ?_⟩
  · unfold get_things
    rw [hl]
  · rw [hlen, postAll_length]
    simp

/-- Claim C4: update changes text — for every stored state and every id
present in the table, `PUT /things/{id}` with body text `t` followed by
`GET /things/{id}` returns a record whose text is `t`. -/
theorem put_then_get_text (s : String) (m : ThingModel) (db : DB) (r : Thing)
    (h : sessionGet db s = some r) :
    get_thing s (put_thing s m db).2 =
      (.ok (some ⟨some r.id, m.text⟩), (put_thing s m db).2) := by
  obtain ⟨n, hp, hfind, hid⟩ := sessionGet_eq_some db s r h
  have hput : (put_thing s m db).2 =
      db.map (fun x => if x.id = r.id then { x with text := some m.text } else x) := by
    unfold put_thing
    rw [h]
  have hmapid : ∀ x : Thing,
      ((if x.id = r.id then { x with text := some m.text } else x) : Thing).id = x.id :=
    fun x => by by_cases hx : x.id = r.id <;> simp [hx]
  have hget : sessionGet (put_thing s m db).2 s =
      some { r with text := some m.text } := by
    rw [sessionGet_parse_some _ s n hp, hput,
      find?_id_map n (fun x => if x.id = r.id then { x with text := some m.text } else x)
        hmapid db,
      hfind]
    simp
  unfold get_thing
  rw [hget]
  rfl

theorem put_then_get_text_witness :
    get_thing "1" (put_thing "1" ⟨none, "xyz"⟩ [⟨1, some "a"⟩]).2 =
      (.ok (some ⟨some 1, "xyz"⟩), (put_thing "1" ⟨none, "xyz"⟩ [⟨1, some "a"⟩]).2) :=
  put_then_get_text "1" ⟨none, "xyz"⟩ [⟨1, some "a"⟩] ⟨1, some "a"⟩ rfl

/-- Claim C5: delete removes — for every stored state and every id present
in the table, `DELETE /things/{id}` followed by `GET /things/{id}` returns
an empty response (no record). -/
theorem delete_then_get_none (s : String) (db : DB) (r : Thing)
    (h : sessionGet db s = some r) :
    get_thing s (delete_thing s db).2 = (.ok none, (delete_thing s db).2) := by
  obtain ⟨n, hp, _, hid⟩ := sessionGet_eq_some db s r h
  have hdel : (delete_thing s db).2 = db.filter (fun x => x.id ≠ r.id) := by
    unfold delete_thing
    rw [h]
  have hget : sessionGet (delete_thing s db).2 s = none := by
    unfold sessionGet
    rw [hp, hdel, hid]
    exact find?_id_filter_ne n db
  unfold get_thing
  rw [hget]

theorem delete_then_get_none_witness :
    get_thing "1" (delete_thing "1" [⟨1, some "a"⟩]).2 =
      (.ok none, (delete_thing "1" [⟨1, some "a"⟩]).2) :=
  delete_then_get_none "1" [⟨1, some "a"⟩] ⟨1, some "a"⟩ rfl

/-- Claim C7: startup reset — `on_startup` runs `create_db_and_tables`,
which drops and recreates the `thing` table, so after startup the table
exists and is empty regardless of the contents left by prior runs. -/
theorem startup_resets_table (s : Storage) :
    (on_startup s).thingTable = some [] := rfl

/-- Claim C8: non-null text invariant — the empty table satisfies it, and
each of the five operations (list, get, insert, update, delete) maps a
table of non-null-text rows to a table of non-null-text rows, so every row
persisted through them has a non-null text. -/
theorem text_non_null_invariant :
    TextNonNull [] ∧
    ∀ db, TextNonNull db →
      (∀ m, TextNonNull (post_thing m db).2) ∧
      (∀ s m, TextNonNull (put_thing s m db).2) ∧
      (∀ s, TextNonNull (delete_thing s db).2) ∧
      (∀ s, TextNonNull (get_thing s db).2) ∧
      TextNonNull (get_things db).2 := by
  refine ⟨fun r hr => absurd hr (List.not_mem_nil r), fun db h => ⟨?_, ?_, ?_, ?_, ?_⟩⟩
  · intro m r hr
    simp only [post_thing] at hr
    rcases List.mem_append.mp hr with hmem | hmem
    · exact h r hmem
    · simp at hmem
      simp [hmem]
  · intro s m r hr
    unfold put_thing at hr
    cases hsg : sessionGet db s with
    | none => rw [hsg] at hr; exact h r hr
    | some t =>
        rw [hsg] at hr
        simp only at hr
        obtain ⟨y, hy, hfy⟩ := List.mem_map.mp hr
        by_cases hc : y.id = t.id
        · rw [if_pos hc] at hfy
          simp [← hfy]
        · rw [if_neg hc] at hfy
          rw [← hfy]
          exact h y hy
  · intro s r hr
    unfold delete_thing at hr
    cases hsg : sessionGet db s with
    | none => rw [hsg] at hr; exact h r hr
    | some t =>
        rw [hsg] at hr
        simp only at hr
        exact h r (List.mem_filter.mp hr).1
  · intro s r hr
    unfold get_thing at hr
    cases hsg : sessionGet db s with
    | none => rw [hsg] at hr; exact h r hr
    | some t => rw [hsg] at hr; exact h r hr
  · exact h

theorem text_non_null_invariant_witness :
    TextNonNull (post_thing ⟨none, "abc"⟩ []).2 :=
  (text_non_null_invariant.2 []
    (fun r hr => absurd hr (List.not_mem_nil r))).1 ⟨none, "abc"⟩

/-- Claim C9: server-generated unique id — every POST inserts exactly one
row whose id is assigned by the storage layer (`newId`, fresh: distinct
from every existing row's id), and the id field of the request body has no
effect on the result. -/
theorem post_fresh_id_ignores_body_id (m : ThingModel) (i : Option Int) (db : DB) :
    (∃ r, (post_thing m db).2 = db ++ [r] ∧ r.id = newId db ∧
      ∀ x ∈ db, x.id ≠ r.id) ∧
    post_thing m db = post_thing ⟨i, m.text⟩ db :=
  ⟨⟨⟨newId db, some m.text⟩, rfl, rfl,
    fun x hx => ne_of_lt (id_lt_newId db x hx)⟩, rfl⟩

/-- Claim C10: PUT frame condition — for every stored state and every id
present in the table, `PUT /things/{id}` keeps the table pointwise in
place: every row keeps its id, every row whose id differs from the selected
one is unchanged, the selected row only has its text replaced; and the id
field of the request body has no effect on the result. -/
theorem put_frame_condition (s : String) (m : ThingModel) (i : Option Int)
    (db : DB) (r : Thing) (h : sessionGet db s = some r) :
    List.Forall₂ (fun x y => x.id = y.id ∧
        (y.id ≠ r.id → x = y) ∧
        (y.id = r.id → x = { y with text := some m.text }))
      (put_thing s m db).2 db ∧
    put_thing s m db = put_thing s ⟨i, m.text⟩ db := by
  constructor
  · have hput : (put_thing s m db).2 =
        db.map (fun x => if x.id = r.id then { x with text := some m.text } else x) := by
      unfold put_thing
      rw [h]
    rw [hput]
    refine forall₂_map_self _ (fun y => ?_) db
    by_cases hc : y.id = r.id
    · rw [if_pos hc]
      exact ⟨rfl, fun hne => absurd hc hne, fun _ => rfl⟩
    · rw [if_neg hc]
      exact ⟨rfl, fun _ => rfl, fun heq => absurd heq hc⟩
  · rfl

theorem put_frame_condition_witness :
    List.Forall₂ (fun x y => x.id = y.id ∧
        (y.id ≠ (⟨1, some "a"⟩ : Thing).id → x = y) ∧
        (y.id = (⟨1, some "a"⟩ : Thing).id →
          x = { y with text := some "z" }))
      (put_thing "1" ⟨some 42, "z"⟩ [⟨1, some "a"⟩, ⟨2, some "b"⟩]).2
      [⟨1, some "a"⟩, ⟨2, some "b"⟩] ∧
    put_thing "1" ⟨some 42, "z"⟩ [⟨1, some "a"⟩, ⟨2, some "b"⟩] =
      put_thing "1" ⟨some 7, "z"⟩ [⟨1, some "a"⟩, ⟨2, some "b"⟩] :=
  put_frame_condition "1" ⟨some 42, "z"⟩ (some 7)
    [⟨1, some "a"⟩, ⟨2, some "b"⟩] ⟨1, some "a"⟩ rfl

end Main
